import Mathlib

/-!
Shallow embedding of the `gretchen` request-execution helper
(`src/index.ts`): JSON values and their text serialization, the
case-insensitive header container, option resolution, the 429 retry
loop, finalization, and the configuration factory.  A separate
explicit-heap model of the option-resolution block is used to state
object-level invariants (key stripping, absence of mutation).
-/

/-- JSON values, the payloads carried by `body` and by response bodies. -/
inductive Jval where
  | null
  | bool (b : Bool)
  | num (n : Int)
  | str (s : String)
  | arr (a : List Jval)
  | obj (o : List (String × Jval))

/-- Two lowercase hex digits, used for control-character escapes. -/
def hex2 (n : Nat) : String :=
  let d := fun m => if m < 10 then Char.ofNat (48 + m) else Char.ofNat (87 + m)
  String.mk [d (n / 16 % 16), d (n % 16)]

/-- Escape of a single character inside a JSON string literal,
as produced by `JSON.stringify`. -/
def escChar (c : Char) : String :=
  if c = '"' then "\\\""
  else if c = '\\' then "\\\\"
  else if c = '\n' then "\\n"
  else if c = '\r' then "\\r"
  else if c = '\t' then "\\t"
  else if c.toNat = 8 then "\\b"
  else if c.toNat = 12 then "\\f"
  else if c.toNat < 32 then "\\u00" ++ hex2 c.toNat
  else String.singleton c

/-- A JSON string literal with its quotes, as produced by `JSON.stringify`. -/
def escapeString (s : String) : String :=
  "\"" ++ String.join (s.data.map escChar) ++ "\""

mutual

/-- The text serialization `JSON.stringify` of a JSON value. -/
def Jval.stringify : Jval → String
  | .null => "null"
  | .bool true => "true"
  | .bool false => "false"
  | .num n => toString n
  | .str s => escapeString s
  | .arr a => "[" ++ stringifyItems a ++ "]"
  | .obj o => "\x7b" ++ stringifyFields o ++ "\x7d"

/-- Comma-separated serialization of array items. -/
def stringifyItems : List Jval → String
  | [] => ""
  | [v] => Jval.stringify v
  | v :: rest => Jval.stringify v ++ "," ++ stringifyItems rest

/-- Comma-separated serialization of object fields. -/
def stringifyFields : List (String × Jval) → String
  | [] => ""
  | [(k, v)] => escapeString k ++ ":" ++ Jval.stringify v
  | (k, v) :: rest =>
      escapeString k ++ ":" ++ Jval.stringify v ++ "," ++ stringifyFields rest

end

/-!
## Header container

A `Headers` value is the entry list of a WHATWG `Headers` object: names
are stored lowercased, duplicates are allowed, `get` joins duplicate
values with `", "`, and `set` replaces the first matching entry and
removes the rest.  Lookups are case-insensitive because both `get` and
`set` lowercase the queried name.
-/

/-- ASCII lowercasing of one character (header names are ASCII). -/
def lowerChar (c : Char) : Char :=
  if c.toNat ≥ 65 && c.toNat ≤ 90 then Char.ofNat (c.toNat + 32) else c

/-- ASCII lowercasing of a header name. -/
def lowerName (s : String) : String := String.mk (s.data.map lowerChar)

/-- Entry list of a `Headers` object (names stored lowercased). -/
abbrev Headers := List (String × String)

/-- `Headers.append`: add an entry, lowercasing the name. -/
def Headers.append (h : Headers) (n v : String) : Headers :=
  h ++ [(lowerName n, v)]

/-- `Headers.get`: case-insensitive lookup; duplicate values are joined
with `", "`; `null` (here `none`) when no entry matches. -/
def Headers.get (h : Headers) (n : String) : Option String :=
  match (h.filter (fun p => p.1 == lowerName n)).map Prod.snd with
  | [] => none
  | v :: rest => some (String.intercalate ", " (v :: rest))

/-- Replace the first entry named `k` (already lowercased) and drop the
others; append when no entry matches. -/
def setEntries : List (String × String) → String → String → List (String × String)
  | [], k, v => [(k, v)]
  | p :: t, k, v =>
    if p.1 == k then (k, v) :: t.filter (fun q => !(q.1 == k))
    else p :: setEntries t k v

/-- `Headers.set`: case-insensitive replace-or-append. -/
def Headers.set (h : Headers) (n v : String) : Headers :=
  setEntries h (lowerName n) v

/-- `new Headers(record)`: build a header list from a plain record by
appending each entry in order. -/
def Headers.ofList (l : List (String × String)) : Headers :=
  l.foldl (fun h p => h.append p.1 p.2) []

/-!
## Configuration model

A JavaScript object property is absent (`none`), present with value
`undefined` (`some none`), or present with a value (`some (some v)`).
Reading a property collapses the first two cases; the spread-merge in
`createGretchen` distinguishes them.
-/

/-- A possibly absent, possibly `undefined` object property. -/
def JField (α : Type) : Type := Option (Option α)

instance : Inhabited (JField α) := ⟨none⟩

/-- Property read: absent and present-`undefined` both read as `undefined`. -/
def getF (f : JField α) : Option α := f.join

/-- JavaScript truthiness of a boolean-typed option: only a present
`true` is truthy. -/
def truthy (f : JField Bool) : Bool := (getF f).getD false

/-- The argument object of `gretchen` (`GretchenRequestInit`): the six
recognized options, the `RequestInit` fields the resolver touches
(`method`, `headers`), and the remaining pass-through options. -/
structure GretchenRequestInit where
  body : JField Jval := none
  requestJSON : JField Bool := none
  retryOnTooManyRequests : JField Bool := none
  returnJSON : JField Bool := none
  sendJSON : JField Bool := none
  throwOnError : JField Bool := none
  method : JField String := none
  headers : JField (List (String × String)) := none
  extra : List (String × Jval) := []

/-- A pre-built `Request` object: already fully formed; `gretchen`
forwards it to the transport untouched. -/
structure RequestDescriptor where
  method : String := "GET"
  headers : Headers := []
  bodyText : Option String := none

/-- The `input` argument: a URL string or `URL` value (both are
`instanceof Request === false` and behave identically), or a pre-built
`Request`. -/
inductive Target where
  | url (s : String)
  | request (d : RequestDescriptor)

/-- The value of a `headers` slot in a resolved `RequestInit`: either
the caller's raw `HeadersInit` record, forwarded untouched, or a
`Headers` object constructed by the resolver. -/
inductive HeadersValue where
  | raw (l : List (String × String))
  | built (h : Headers)

/-- The entries `new Headers(x)` reads from a `headers` slot
(`new Headers(undefined)` is empty; a `Headers` object is copied). -/
def headersOf : Option HeadersValue → Headers
  | none => []
  | some (.raw l) => Headers.ofList l
  | some (.built h) => h

/-- The `RequestInit` handed to `fetch`: pass-through options plus the
possibly rewritten `method`, `headers` and `body`. -/
structure ResolvedInit where
  method : Option String := none
  headers : Option HeadersValue := none
  body : Option Jval := none
  extra : List (String × Jval) := []

/-- Header lookup on a resolved request (through the `Headers` view). -/
def ResolvedInit.getHeader (ri : ResolvedInit) (n : String) : Option String :=
  (headersOf ri.headers).get n

/-- The `Headers` view of the caller-supplied `headers` option,
i.e. `new Headers(callerHeaders)`. -/
def callerHeaders (cfg : GretchenRequestInit) : Headers :=
  headersOf ((getF cfg.headers).map HeadersValue.raw)

/-- Option resolution and content negotiation (`src/index.ts`
lines 115-146): destructure the recognized options off a copy of the
argument object; for a non-`Request` target, default the `Accept`
header when `requestJSON`/`returnJSON` is truthy, and default the
method, the `Content-Type` header and the serialized body when
`sendJSON` is truthy and `body` is defined; otherwise forward `body`
unchanged. -/
def resolveInit (input : Target) (cfg : GretchenRequestInit) : ResolvedInit :=
  let body := getF cfg.body
  let requestJSON := truthy cfg.requestJSON
  let returnJSON := truthy cfg.returnJSON
  let sendJSON := truthy cfg.sendJSON
  let init0 : ResolvedInit :=
    { method := getF cfg.method
      headers := (getF cfg.headers).map HeadersValue.raw
      body := none
      extra := cfg.extra }
  match input with
  | .request _ => init0
  | .url _ =>
    let init1 :=
      if requestJSON || returnJSON then
        let h0 := headersOf init0.headers
        let h1 := if h0.get "accept" = none
                  then h0.set "accept" "application/json" else h0
        { init0 with headers := some (.built h1) }
      else init0
    match sendJSON, body with
    | true, some b =>
      let init2 := if init1.method = none
                   then { init1 with method := some "POST" } else init1
      let h0 := headersOf init2.headers
      let h1 := if h0.get "content-type" = none
                then h0.set "content-type" "application/json" else h0
      { init2 with headers := some (.built h1)
                   body := some (.str (Jval.stringify b)) }
    | _, _ => { init1 with body := body }

/-!
## Transport model, retry loop, finalization

The transport is scripted: each `fetch` call consumes the next
`Attempt` (a response plus how much wall-clock time the call took).
Date parsing (`Number(new Date(s))`) and the timer are external
capabilities: the date parser is a parameter, and a suspension is
modeled by recording the requested delay and advancing the clock by
it.  An exhausted script means the run is still awaiting the
transport (`none`).
-/

/-- A response from the transport: numeric status, status text,
headers, and the verdict of parsing the body as JSON (`none` when the
body is not valid JSON). -/
structure Response where
  status : Nat
  statusText : String
  headers : Headers
  json : Option Jval := none

/-- `Response.ok`: success range 200-299. -/
def Response.ok (r : Response) : Bool :=
  decide (200 ≤ r.status) && decide (r.status ≤ 299)

/-- One scripted transport call: the wall-clock milliseconds the call
takes and the response it yields. -/
structure Attempt where
  fetchDuration : Int := 0
  response : Response

/-- `^\d+$`: nonempty and composed entirely of decimal digits. -/
def isAllDigits (s : String) : Bool :=
  decide (0 < s.length) && s.data.all Char.isDigit

/-- Numeric value of an all-digit string (`Number(s)`). -/
def digitsToNat (s : String) : Nat :=
  s.data.foldl (fun n c => n * 10 + (c.toNat - 48)) 0

/-- The retry loop (`src/index.ts` lines 147-171), up to finalization:
record the attempt-start time, perform the scripted transport call,
and on a retriable 429 suspend for the computed delay and restart with
the advanced clock.  Returns the requested delays in order, and the
terminal response (`none` when the script ran out). -/
def retryLoop (pd : String → Option Int) (retryOn : Bool) :
    List Attempt → Int → List Int × Option Response
  | [], _ => ([], none)
  | a :: rest, now =>
    let nowEpoch := now
    let r := a.response
    let afterFetch := now + a.fetchDuration
    if retryOn && r.status == 429 then
      match r.headers.get "retry-after" with
      | some ra =>
        if isAllDigits ra then
          let delay : Int := (digitsToNat ra : Int) * 1000
          let rec' := retryLoop pd retryOn rest (afterFetch + delay)
          (delay :: rec'.1, rec'.2)
        else
          match pd ra with
          | some e =>
            let delay : Int := max 0 (e - nowEpoch)
            let rec' := retryLoop pd retryOn rest (afterFetch + delay)
            (delay :: rec'.1, rec'.2)
          | none => ([], some r)
      | none => ([], some r)
    else ([], some r)

/-- The error value raised on a non-success terminal response when
`throwOnError` is enabled. -/
structure HTTPError where
  message : String
  response : Response

/-- How a run can fail: an `HTTPError`, or a JSON body-parse failure
propagated unchanged from the codec. -/
inductive Failure where
  | http (e : HTTPError)
  | jsonParse

/-- The value a successful run resolves to: the raw response, or its
body parsed as JSON. -/
inductive RetVal where
  | resp (r : Response)
  | json (v : Jval)

/-- Finalization (`src/index.ts` lines 172-180): throw on a
non-success status when `throwOnError` is set, otherwise return the
parsed body or the raw response according to `returnJSON`. -/
def finalize (throwOnError returnJSON : Bool) (r : Response) :
    Except Failure RetVal :=
  if throwOnError && !r.ok then
    .error (.http ⟨toString r.status ++ " " ++ r.statusText, r⟩)
  else if returnJSON then
    match r.json with
    | some v => .ok (.json v)
    | none => .error .jsonParse
  else .ok (.resp r)

/-- Everything observable about one `gretchen` invocation: the target
and `RequestInit` handed to every `fetch` call, the suspension delays
requested, and the final outcome (`none` while still awaiting the
transport). -/
structure GretchenRun where
  fetchInput : Target
  fetchInit : ResolvedInit
  delays : List Int
  outcome : Option (Except Failure RetVal)

/-- The `gretchen` entry point (`src/index.ts` lines 111-182): resolve
the request once, run the retry loop against the scripted transport,
finalize the terminal response. -/
def gretchen (pd : String → Option Int) (input : Target)
    (cfg : GretchenRequestInit) (script : List Attempt) (now : Int) :
    GretchenRun :=
  let ri := resolveInit input cfg
  let lp := retryLoop pd (truthy cfg.retryOnTooManyRequests) script now
  { fetchInput := input
    fetchInit := ri
    delays := lp.1
    outcome := lp.2.map (finalize (truthy cfg.throwOnError) (truthy cfg.returnJSON)) }

/-!
## Configuration factory
-/

/-- Spread-merge of one property: a key present in the second object
(even holding `undefined` or `false`) wins. -/
def mField (d o : JField α) : JField α :=
  match o with
  | none => d
  | some v => some v

/-- Spread-merge of the pass-through options: keys of the second
object win; remaining keys of the first object are kept. -/
def spreadExtra (d o : List (String × Jval)) : List (String × Jval) :=
  d.filter (fun p => !(o.any (fun q => q.1 == p.1))) ++ o

/-- `{...defaults, ...overrides}`: key-wise shallow merge of two
argument objects. -/
def mergeInit (d o : GretchenRequestInit) : GretchenRequestInit :=
  { body := mField d.body o.body
    requestJSON := mField d.requestJSON o.requestJSON
    retryOnTooManyRequests := mField d.retryOnTooManyRequests o.retryOnTooManyRequests
    returnJSON := mField d.returnJSON o.returnJSON
    sendJSON := mField d.sendJSON o.sendJSON
    throwOnError := mField d.throwOnError o.throwOnError
    method := mField d.method o.method
    headers := mField d.headers o.headers
    extra := spreadExtra d.extra o.extra }

/-- `createGretchen` (`src/index.ts` lines 322-328): the bound callable
delegates to `gretchen` with `{...initDefaults, ...init}`; either
object may be omitted (`none`). -/
def createGretchen (dflt : Option GretchenRequestInit)
    (pd : String → Option Int) (input : Target)
    (ov : Option GretchenRequestInit) (script : List Attempt) (now : Int) :
    GretchenRun :=
  gretchen pd input (mergeInit (dflt.getD {}) (ov.getD {})) script now

/-!
## Object-level model of option resolution

To state what lines 115-146 of `src/index.ts` do to JavaScript
*objects* — which keys the transport-visible `RequestInit` contains
(C9) and that caller-owned objects are never mutated (C10) — the same
lines are modeled once more at the level of an explicit heap of
objects.  `{...gretchenInit}` allocates a copy, the `rest` pattern
allocates a fresh object holding the unrecognized keys,
`new Headers(...)` allocates a fresh header cell, and every assignment
is a `Heap.write`.
-/

/-- A JavaScript value stored in an object property. -/
inductive HVal where
  | undef
  | boolv (b : Bool)
  | strv (s : String)
  | jv (v : Jval)
  | plain (l : List (String × String))
  | ref (a : Nat)

/-- `true` exactly for `undefined`. -/
def HVal.isUndef : HVal → Bool
  | .undef => true
  | _ => false

/-- `x == null` for the values the resolver tests (`undefined` and
JSON `null` are loosely equal to `null`). -/
def HVal.isNullish : HVal → Bool
  | .undef => true
  | .jv .null => true
  | _ => false

/-- JavaScript truthiness of a stored value. -/
def HVal.truthyV : HVal → Bool
  | .undef => false
  | .boolv b => b
  | .strv s => !s.isEmpty
  | .jv .null => false
  | .jv (.bool b) => b
  | .jv (.num n) => !(n == 0)
  | .jv (.str s) => !s.isEmpty
  | .jv (.arr _) => true
  | .jv (.obj _) => true
  | .plain _ => true
  | .ref _ => true

/-- A heap cell: an ordinary object (an ordered field list with unique
keys) or a `Headers` object. -/
inductive Cell where
  | obj (fields : List (String × HVal))
  | hdrs (entries : Headers)

/-- A heap of JavaScript objects, addressed by allocation index. -/
abbrev Heap := List Cell

/-- Allocate a fresh cell; returns the grown heap and the new address. -/
def Heap.alloc (σ : Heap) (c : Cell) : Heap × Nat := (σ ++ [c], σ.length)

/-- Dereference (out-of-range reads give an empty object). -/
def Heap.read (σ : Heap) (a : Nat) : Cell := σ.getD a (.obj [])

/-- Overwrite the cell at an address. -/
def Heap.write (σ : Heap) (a : Nat) (c : Cell) : Heap := σ.set a c

/-- Field list of an object cell. -/
def objFields : Cell → List (String × HVal)
  | .obj f => f
  | .hdrs _ => []

/-- Entry list of a `Headers` cell. -/
def hdrsEntries : Cell → Headers
  | .hdrs h => h
  | .obj _ => []

/-- Property read: `undefined` when the key is absent. -/
def getProp : List (String × HVal) → String → HVal
  | [], _ => .undef
  | p :: t, k => if p.1 == k then p.2 else getProp t k

/-- Property assignment: overwrite in place, or append a new key. -/
def setProp : List (String × HVal) → String → HVal → List (String × HVal)
  | [], k, v => [(k, v)]
  | p :: t, k, v => if p.1 == k then (k, v) :: t else p :: setProp t k v

/-- The six option names destructured off the argument object. -/
def recognizedKeys : List String :=
  ["body", "requestJSON", "retryOnTooManyRequests", "returnJSON",
   "sendJSON", "throwOnError"]

/-- The entries `new Headers(x)` reads from a `headers` property:
nothing for `undefined`, the appended entries of a plain record, a
copy of a referenced `Headers` cell. -/
def newHeadersEntries (σ : Heap) : HVal → Headers
  | .plain l => Headers.ofList l
  | .ref a => hdrsEntries (σ.read a)
  | _ => []

/-- `JSON.stringify` of a stored body value (a `Headers` reference has
no enumerable properties, hence `"\x7b\x7d"`). -/
def jsonTextH : HVal → String
  | .jv v => v.stringify
  | .strv s => Jval.stringify (.str s)
  | .boolv b => Jval.stringify (.bool b)
  | .plain l => Jval.stringify (.obj (l.map (fun p => (p.1, Jval.str p.2))))
  | .ref _ => "\x7b\x7d"
  | .undef => "null"

/-- The assignment `o.k = v` performed on the object at address `r`. -/
def setPropAt (σ : Heap) (r : Nat) (k : String) (v : HVal) : Heap :=
  σ.write r (.obj (setProp (objFields (σ.read r)) k v))

/-- Lines 128-133: `init.headers = new Headers(init.headers)` (a fresh
allocation assigned to `init.headers`), then default the `accept`
entry if absent. -/
def acceptPhase (requestJSON returnJSON : Bool) (restAddr : Nat) (σ : Heap) :
    Heap :=
  if requestJSON || returnJSON then
    let hv := getProp (objFields (σ.read restAddr)) "headers"
    let al := σ.alloc (.hdrs (newHeadersEntries σ hv))
    let σ2 := setPropAt al.1 restAddr "headers" (.ref al.2)
    if (hdrsEntries (σ2.read al.2)).get "accept" = none then
      σ2.write al.2
        (.hdrs ((hdrsEntries (σ2.read al.2)).set "accept" "application/json"))
    else σ2
  else σ

/-- Lines 134-145: when `sendJSON` is truthy and `body` is defined,
default the method, rebuild the headers (another fresh allocation),
default the `content-type` entry if absent, and assign the serialized
body; otherwise assign the raw body. -/
def bodyPhase (sendJSON : Bool) (body : HVal) (restAddr : Nat) (σ : Heap) :
    Heap :=
  if sendJSON && !body.isUndef then
    let σa := if (getProp (objFields (σ.read restAddr)) "method").isNullish then
        setPropAt σ restAddr "method" (.strv "POST")
      else σ
    let hv := getProp (objFields (σa.read restAddr)) "headers"
    let al := σa.alloc (.hdrs (newHeadersEntries σa hv))
    let σ2 := setPropAt al.1 restAddr "headers" (.ref al.2)
    let σ3 :=
      if (hdrsEntries (σ2.read al.2)).get "content-type" = none then
        σ2.write al.2
          (.hdrs ((hdrsEntries (σ2.read al.2)).set "content-type"
            "application/json"))
      else σ2
    setPropAt σ3 restAddr "body" (.strv (jsonTextH body))
  else
    setPropAt σ restAddr "body" body

/-- Lines 115-146 over the heap: copy the argument object, destructure
the recognized options, allocate the `rest` object from the
unrecognized keys, and (for a non-`Request` target) run the two
negotiation phases on it.  Returns the address of the object handed to
`fetch`, and the final heap. -/
def resolveInitHeap (isRequest : Bool) (cfgAddr : Nat) (σ0 : Heap) :
    Nat × Heap :=
  let cfgFields := objFields (σ0.read cfgAddr)
  let copy := σ0.alloc (.obj cfgFields)
  let body := getProp cfgFields "body"
  let requestJSON := (getProp cfgFields "requestJSON").truthyV
  let returnJSON := (getProp cfgFields "returnJSON").truthyV
  let sendJSON := (getProp cfgFields "sendJSON").truthyV
  let restFields := cfgFields.filter (fun p => !(recognizedKeys.contains p.1))
  let al := copy.1.alloc (.obj restFields)
  if isRequest then (al.2, al.1)
  else
    (al.2, bodyPhase sendJSON body al.2
      (acceptPhase requestJSON returnJSON al.2 al.1))

/-!
## Derived predicates and spec-side definitions
-/

/-- The retry condition of the loop, read off lines 150-169: retry is
enabled, the status is exactly 429, and the `Retry-After` value is
usable (all digits, or parseable as a date). -/
def retriable429 (pd : String → Option Int) (retryOn : Bool)
    (r : Response) : Bool :=
  retryOn && r.status == 429 &&
    (match r.headers.get "retry-after" with
     | none => false
     | some s => isAllDigits s || (pd s).isSome)

/-- Spec-side definition for the pass-through identity (claim C4,
following the spec's words): the request a *direct transport call*
receives — the pass-through options together with the caller's raw
`body` and `headers`. -/
def specDirectInit (cfg : GretchenRequestInit) : ResolvedInit :=
  { method := getF cfg.method
    headers := (getF cfg.headers).map HeadersValue.raw
    body := getF cfg.body
    extra := cfg.extra }

/-- Spec-side definition for the pass-through identity (claim C4): the
value a direct transport call resolves to — the first scripted
response, unwrapped and unparsed. -/
def specDirectOutcome (script : List Attempt) :
    Option (Except Failure RetVal) :=
  script.head?.map (fun a => Except.ok (RetVal.resp a.response))

/-- Key presence in an object field list. -/
def hasKey (f : List (String × HVal)) (k : String) : Bool :=
  f.any (fun p => p.1 == k)


/-!
## Helper lemmas: the header container
-/

theorem filter_inv_self (t : List (String × String)) (k : String) :
    (t.filter (fun q => !(q.1 == k))).filter (fun p => p.1 == k) = [] := by
  rw [List.filter_filter]
  refine List.filter_eq_nil_iff.mpr ?_
  intro a _
  cases hq : a.1 == k <;> simp [hq]

theorem filter_keep_ne (t : List (String × String)) (k k2 : String)
    (hne : k ≠ k2) :
    (t.filter (fun q => !(q.1 == k))).filter (fun p => p.1 == k2) =
      t.filter (fun p => p.1 == k2) := by
  rw [List.filter_filter]
  refine List.filter_congr ?_
  intro a _
  cases hq : a.1 == k2
  · simp [hq]
  · have ha : a.1 = k2 := by simpa using hq
    have : (a.1 == k) = false := by
      refine beq_eq_false_iff_ne.mpr ?_
      rw [ha]; exact fun hcontra => hne hcontra.symm
    simp [hq, this]

theorem filter_setEntries_self (h : List (String × String)) (k v : String) :
    (setEntries h k v).filter (fun p => p.1 == k) = [(k, v)] := by
  induction h with
  | nil => simp [setEntries]
  | cons p t ih =>
    rw [setEntries]
    by_cases hp : p.1 = k
    · rw [if_pos (by simp [hp])]
      simp only [List.filter_cons, beq_self_eq_true, if_true, filter_inv_self]
    · rw [if_neg (by simp [hp])]
      simp only [List.filter_cons, beq_eq_false_iff_ne.mpr hp,
        Bool.false_eq_true, if_false, ih]

theorem filter_setEntries_ne (h : List (String × String)) (k k2 v : String)
    (hne : k ≠ k2) :
    (setEntries h k v).filter (fun p => p.1 == k2) =
      h.filter (fun p => p.1 == k2) := by
  induction h with
  | nil => simp [setEntries, beq_eq_false_iff_ne.mpr hne]
  | cons p t ih =>
    rw [setEntries]
    by_cases hp : p.1 = k
    · rw [if_pos (by simp [hp])]
      have hk : (k == k2) = false := beq_eq_false_iff_ne.mpr hne
      have hpk2 : (p.1 == k2) = false := by
        rw [hp]; exact hk
      simp only [List.filter_cons, hk, hpk2, Bool.false_eq_true, if_false]
      exact filter_keep_ne t k k2 hne
    · rw [if_neg (by simp [hp])]
      simp only [List.filter_cons, ih]

theorem Headers.get_set_self (h : Headers) (n v : String) :
    (h.set n v).get n = some v := by
  unfold Headers.get Headers.set
  rw [filter_setEntries_self]
  rfl

theorem Headers.get_set_ne (h : Headers) (n m v : String)
    (hne : lowerName n ≠ lowerName m) :
    (h.set n v).get m = h.get m := by
  unfold Headers.get Headers.set
  rw [filter_setEntries_ne _ _ _ _ hne]

/-!
## Helper lemmas: the heap
-/

theorem Heap.read_append_lt (σ τ : Heap) (a : Nat) (h : a < σ.length) :
    Heap.read (σ ++ τ) a = σ.read a := by
  simp [Heap.read, List.getD, List.getElem?_append_left h]

theorem Heap.read_concat_self (σ : Heap) (c : Cell) :
    Heap.read (σ ++ [c]) σ.length = c := by
  simp [Heap.read, List.getD, List.getElem?_concat_length]

theorem Heap.read_write_ne (σ : Heap) (a b : Nat) (c : Cell) (h : b ≠ a) :
    Heap.read (σ.write b c) a = σ.read a := by
  simp [Heap.read, Heap.write, List.getD, List.getElem?_set_ne h]

theorem Heap.read_write_self (σ : Heap) (b : Nat) (c : Cell) (h : b < σ.length) :
    Heap.read (σ.write b c) b = c := by
  simp [Heap.read, Heap.write, List.getD, List.getElem?_set_self', h]

theorem Heap.write_length (σ : Heap) (b : Nat) (c : Cell) :
    (σ.write b c).length = σ.length := by
  simp [Heap.write]

theorem Heap.append_length (σ τ : Heap) :
    σ.length ≤ (σ ++ τ).length := by
  simp

/-!
## Helper lemmas: object field lists
-/

theorem getProp_setProp_ne (f : List (String × HVal)) (k k2 : String)
    (v : HVal) (hne : k ≠ k2) :
    getProp (setProp f k v) k2 = getProp f k2 := by
  induction f with
  | nil =>
    simp [setProp, getProp, beq_eq_false_iff_ne.mpr hne]
  | cons p t ih =>
    rw [setProp]
    by_cases hp : p.1 = k
    · rw [if_pos (by simp [hp])]
      have hk : (k == k2) = false := beq_eq_false_iff_ne.mpr hne
      have hpk2 : (p.1 == k2) = false := by rw [hp]; exact hk
      simp [getProp, hk, hpk2]
    · rw [if_neg (by simp [hp])]
      simp only [getProp, ih]

theorem hasKey_setProp_ne (f : List (String × HVal)) (k k2 : String)
    (v : HVal) (hne : k ≠ k2) :
    hasKey (setProp f k v) k2 = hasKey f k2 := by
  induction f with
  | nil => simp [setProp, hasKey, beq_eq_false_iff_ne.mpr hne]
  | cons p t ih =>
    rw [setProp]
    by_cases hp : p.1 = k
    · rw [if_pos (by simp [hp])]
      have hk : (k == k2) = false := beq_eq_false_iff_ne.mpr hne
      have hpk2 : (p.1 == k2) = false := by rw [hp]; exact hk
      simp [hasKey, hk, hpk2]
    · rw [if_neg (by simp [hp])]
      simp only [hasKey, List.any_cons] at ih ⊢
      rw [ih]

theorem hasKey_setProp_imp (f : List (String × HVal)) (k k2 : String)
    (v : HVal) (h : hasKey (setProp f k v) k2 = true) :
    k2 = k ∨ hasKey f k2 = true := by
  by_cases hne : k = k2
  · exact Or.inl hne.symm
  · rw [hasKey_setProp_ne f k k2 v hne] at h
    exact Or.inr h

theorem hasKey_filter_strip (l : List (String × HVal)) (k : String)
    (hk : recognizedKeys.contains k = true) :
    hasKey (l.filter (fun p => !(recognizedKeys.contains p.1))) k = false := by
  induction l with
  | nil => simp [hasKey]
  | cons p t ih =>
    rw [List.filter_cons]
    by_cases hp : recognizedKeys.contains p.1 = true
    · simp only [hp, Bool.not_true, Bool.false_eq_true, if_false]
      exact ih
    · have hp' : recognizedKeys.contains p.1 = false := by
        cases hq : recognizedKeys.contains p.1
        · rfl
        · exact absurd hq hp
      simp only [hp', Bool.not_false, if_true]
      have hne : (p.1 == k) = false := by
        refine beq_eq_false_iff_ne.mpr ?_
        intro hcontra
        rw [hcontra] at hp'
        rw [hp'] at hk
        exact Bool.false_ne_true hk
      simp only [hasKey, List.any_cons, hne, Bool.false_or]
      exact ih

theorem getProp_filter_pass (l : List (String × HVal)) (k : String)
    (hk : recognizedKeys.contains k = false) :
    getProp (l.filter (fun p => !(recognizedKeys.contains p.1))) k =
      getProp l k := by
  induction l with
  | nil => simp
  | cons p t ih =>
    rw [List.filter_cons]
    by_cases hp : p.1 = k
    · have : recognizedKeys.contains p.1 = false := by rw [hp]; exact hk
      simp only [this, Bool.not_false, if_true]
      simp [getProp, hp, ih]
    · by_cases hq : recognizedKeys.contains p.1 = true
      · simp only [hq, Bool.not_true, Bool.false_eq_true, if_false]
        rw [ih]
        simp [getProp, beq_eq_false_iff_ne.mpr hp]
      · have hq' : recognizedKeys.contains p.1 = false := by
          cases hr : recognizedKeys.contains p.1
          · rfl
          · exact absurd hr hq
        simp only [hq', Bool.not_false, if_true]
        simp only [getProp, beq_eq_false_iff_ne.mpr hp, Bool.false_eq_true,
          if_false]
        exact ih

theorem hasKey_filter_imp (l : List (String × HVal)) (k : String)
    (h : hasKey (l.filter (fun p => !(recognizedKeys.contains p.1))) k = true) :
    hasKey l k = true ∧ recognizedKeys.contains k = false := by
  induction l with
  | nil => simp [hasKey] at h
  | cons p t ih =>
    rw [List.filter_cons] at h
    by_cases hq : recognizedKeys.contains p.1 = true
    · simp only [hq, Bool.not_true, Bool.false_eq_true, if_false] at h
      have := ih h
      refine ⟨?_, this.2⟩
      simp only [hasKey, List.any_cons, Bool.or_eq_true]
      exact Or.inr (by simpa [hasKey] using this.1)
    · have hq' : recognizedKeys.contains p.1 = false := by
        cases hr : recognizedKeys.contains p.1
        · rfl
        · exact absurd hr hq
      simp only [hq', Bool.not_false, if_true] at h
      simp only [hasKey, List.any_cons, Bool.or_eq_true] at h
      cases h with
      | inl hpk =>
        have hpk' : p.1 = k := by simpa using hpk
        constructor
        · simp [hasKey, List.any_cons, hpk]
        · rw [← hpk']; exact hq'
      | inr ht =>
        have := ih ht
        refine ⟨?_, this.2⟩
        simp only [hasKey, List.any_cons, Bool.or_eq_true]
        exact Or.inr (by simpa [hasKey] using this.1)


/-!
## Helper lemmas: the negotiation phases on the heap
-/

theorem setPropAt_length (σ : Heap) (r : Nat) (k : String) (v : HVal) :
    (setPropAt σ r k v).length = σ.length :=
  Heap.write_length _ _ _

theorem read_setPropAt_ne (σ : Heap) (r a : Nat) (k : String) (v : HVal)
    (h : a ≠ r) : (setPropAt σ r k v).read a = σ.read a :=
  Heap.read_write_ne _ _ _ _ (Ne.symm h)

theorem fields_setPropAt (σ : Heap) (r : Nat) (k : String) (v : HVal)
    (hr : r < σ.length) :
    objFields ((setPropAt σ r k v).read r) =
      setProp (objFields (σ.read r)) k v := by
  unfold setPropAt
  rw [Heap.read_write_self _ _ _ hr]
  rfl

theorem acceptPhase_frame (rq rj : Bool) (r a : Nat) (σ : Heap)
    (ha : a < σ.length) (har : a ≠ r) :
    (acceptPhase rq rj r σ).read a = σ.read a := by
  unfold acceptPhase
  by_cases hc : (rq || rj) = true
  · simp only [hc, if_true, Heap.alloc]
    split
    · rw [Heap.read_write_ne _ _ _ _ (Nat.ne_of_gt ha),
        read_setPropAt_ne _ _ _ _ _ har, Heap.read_append_lt _ _ _ ha]
    · rw [read_setPropAt_ne _ _ _ _ _ har, Heap.read_append_lt _ _ _ ha]
  · simp only [hc, Bool.false_eq_true, if_false]

theorem acceptPhase_length (rq rj : Bool) (r : Nat) (σ : Heap) :
    σ.length ≤ (acceptPhase rq rj r σ).length := by
  unfold acceptPhase
  by_cases hc : (rq || rj) = true
  · simp only [hc, if_true, Heap.alloc]
    split <;> simp [setPropAt, Heap.write]
  · simp [hc]

theorem bodyPhase_frame (sj : Bool) (b : HVal) (r a : Nat) (σ : Heap)
    (ha : a < σ.length) (har : a ≠ r) :
    (bodyPhase sj b r σ).read a = σ.read a := by
  unfold bodyPhase
  by_cases hc : (sj && !b.isUndef) = true
  · simp only [hc, if_true, Heap.alloc, setPropAt_length]
    by_cases hm : (getProp (objFields (σ.read r)) "method").isNullish = true
    · simp only [hm, if_true, setPropAt_length]
      split
      · rw [read_setPropAt_ne _ _ _ _ _ har,
          Heap.read_write_ne _ _ _ _ (Nat.ne_of_gt ha),
          read_setPropAt_ne _ _ _ _ _ har,
          Heap.read_append_lt _ _ _ (by rw [setPropAt_length]; exact ha),
          read_setPropAt_ne _ _ _ _ _ har]
      · rw [read_setPropAt_ne _ _ _ _ _ har,
          read_setPropAt_ne _ _ _ _ _ har,
          Heap.read_append_lt _ _ _ (by rw [setPropAt_length]; exact ha),
          read_setPropAt_ne _ _ _ _ _ har]
    · simp only [hm, Bool.false_eq_true, if_false]
      split
      · rw [read_setPropAt_ne _ _ _ _ _ har,
          Heap.read_write_ne _ _ _ _ (Nat.ne_of_gt ha),
          read_setPropAt_ne _ _ _ _ _ har,
          Heap.read_append_lt _ _ _ ha]
      · rw [read_setPropAt_ne _ _ _ _ _ har,
          read_setPropAt_ne _ _ _ _ _ har,
          Heap.read_append_lt _ _ _ ha]
  · simp only [hc, Bool.false_eq_true, if_false]
    exact read_setPropAt_ne _ _ _ _ _ har

theorem acceptPhase_skip (rq rj : Bool) (r : Nat) (σ : Heap)
    (hc : (rq || rj) = false) :
    acceptPhase rq rj r σ = σ := by
  simp [acceptPhase, hc]

theorem acceptPhase_fields (rq rj : Bool) (r : Nat) (σ : Heap)
    (hc : (rq || rj) = true) (hr : r < σ.length) :
    objFields ((acceptPhase rq rj r σ).read r) =
      setProp (objFields (σ.read r)) "headers" (.ref σ.length) := by
  simp only [acceptPhase, hc, if_true, Heap.alloc]
  split
  · rw [Heap.read_write_ne _ _ _ _ (Nat.ne_of_gt hr), fields_setPropAt,
      Heap.read_append_lt _ _ _ hr]
    simp
    omega
  · rw [fields_setPropAt, Heap.read_append_lt _ _ _ hr]
    simp
    omega

theorem bodyPhase_skip_fields (sj : Bool) (b : HVal) (r : Nat) (σ : Heap)
    (hc : (sj && !b.isUndef) = false) (hr : r < σ.length) :
    objFields ((bodyPhase sj b r σ).read r) =
      setProp (objFields (σ.read r)) "body" b := by
  simp only [bodyPhase, hc, Bool.false_eq_true, if_false]
  exact fields_setPropAt _ _ _ _ hr

theorem bodyPhase_fields_m (sj : Bool) (b : HVal) (r : Nat) (σ : Heap)
    (hc : (sj && !b.isUndef) = true)
    (hm : (getProp (objFields (σ.read r)) "method").isNullish = true)
    (hr : r < σ.length) :
    objFields ((bodyPhase sj b r σ).read r) =
      setProp (setProp (setProp (objFields (σ.read r)) "method"
          (.strv "POST")) "headers" (.ref σ.length)) "body"
        (.strv (jsonTextH b)) := by
  simp only [bodyPhase, hc, if_true, hm, Heap.alloc, setPropAt_length]
  split
  · rw [fields_setPropAt, Heap.read_write_ne _ _ _ _ (Nat.ne_of_gt hr),
      fields_setPropAt, Heap.read_append_lt, fields_setPropAt _ _ _ _ hr]
    · rw [setPropAt_length]; exact hr
    · simp [setPropAt_length]
      omega
    · simp [Heap.write, setPropAt]
      omega
  · rw [fields_setPropAt, fields_setPropAt, Heap.read_append_lt,
      fields_setPropAt _ _ _ _ hr]
    · rw [setPropAt_length]; exact hr
    · simp [setPropAt_length]
      omega
    · simp [Heap.write, setPropAt]
      omega

theorem bodyPhase_fields_nm (sj : Bool) (b : HVal) (r : Nat) (σ : Heap)
    (hc : (sj && !b.isUndef) = true)
    (hm : (getProp (objFields (σ.read r)) "method").isNullish = false)
    (hr : r < σ.length) :
    objFields ((bodyPhase sj b r σ).read r) =
      setProp (setProp (objFields (σ.read r)) "headers" (.ref σ.length))
        "body" (.strv (jsonTextH b)) := by
  simp only [bodyPhase, hc, if_true, hm, Bool.false_eq_true, if_false,
    Heap.alloc]
  split
  · rw [fields_setPropAt, Heap.read_write_ne _ _ _ _ (Nat.ne_of_gt hr),
      fields_setPropAt, Heap.read_append_lt _ _ _ hr]
    · simp
      omega
    · simp [Heap.write, setPropAt]
      omega
  · rw [fields_setPropAt, fields_setPropAt, Heap.read_append_lt _ _ _ hr]
    · simp
      omega
    · simp [Heap.write, setPropAt]
      omega

/-!
## Shared helper facts about the executor
-/

theorem gretchen_outcome_eq (pd : String → Option Int) (input : Target)
    (cfg : GretchenRequestInit) (script : List Attempt) (now : Int) :
    (gretchen pd input cfg script now).outcome =
      ((retryLoop pd (truthy cfg.retryOnTooManyRequests) script now).2).map
        (finalize (truthy cfg.throwOnError) (truthy cfg.returnJSON)) := rfl

theorem gretchen_delays_eq (pd : String → Option Int) (input : Target)
    (cfg : GretchenRequestInit) (script : List Attempt) (now : Int) :
    (gretchen pd input cfg script now).delays =
      (retryLoop pd (truthy cfg.retryOnTooManyRequests) script now).1 := rfl

/-!
## Claims
-/

/-- C1: when retry is enabled and the transport yields a 429 carrying a
`Retry-After` header, the loop suspends and restarts: an all-digit
value suspends for exactly that many seconds (value × 1000 ms); a
non-digit value that parses as a date suspends for
`max 0 (parsed - attemptStart)` — never negative — and the next
iteration re-records its attempt-start time (the restarted loop runs
at the advanced clock). -/
theorem retry_429_suspends (pd : String → Option Int) (a : Attempt)
    (rest : List Attempt) (now : Int) (ra : String)
    (h429 : a.response.status = 429)
    (hra : a.response.headers.get "retry-after" = some ra) :
    (isAllDigits ra = true →
      retryLoop pd true (a :: rest) now =
        ((digitsToNat ra : Int) * 1000 ::
            (retryLoop pd true rest
              (now + a.fetchDuration + (digitsToNat ra : Int) * 1000)).1,
          (retryLoop pd true rest
            (now + a.fetchDuration + (digitsToNat ra : Int) * 1000)).2))
    ∧ (∀ e : Int, isAllDigits ra = false → pd ra = some e →
        0 ≤ max 0 (e - now) ∧
        retryLoop pd true (a :: rest) now =
          (max 0 (e - now) ::
              (retryLoop pd true rest
                (now + a.fetchDuration + max 0 (e - now))).1,
            (retryLoop pd true rest
              (now + a.fetchDuration + max 0 (e - now))).2)) := by
  constructor
  · intro hd
    simp [retryLoop, h429, hra, hd]
  · intro e hd hpd
    refine ⟨le_max_left 0 _, ?_⟩
    simp [retryLoop, h429, hra, hd, hpd]

/-- Date parser used by concrete witnesses: parses only `"Thu"`. -/
def pdThu : String → Option Int := fun s => if s = "Thu" then some 500 else none

/-- A scripted 429 attempt carrying `Retry-After: 2`. -/
def att429digits : Attempt :=
  { fetchDuration := 5
    response := { status := 429, statusText := "Too Many Requests",
                  headers := [("retry-after", "2")] } }

/-- A scripted 429 attempt carrying a date-valued `Retry-After`. -/
def att429date : Attempt :=
  { fetchDuration := 5
    response := { status := 429, statusText := "Too Many Requests",
                  headers := [("retry-after", "Thu")] } }

theorem retry_429_suspends_witness :
    retryLoop pdThu true [att429digits] 0 = ([2000], none) ∧
    retryLoop pdThu true [att429date] 100 = ([400], none) := by
  constructor
  · rw [(retry_429_suspends pdThu att429digits [] 0 "2" rfl rfl).1 rfl]
    rfl
  · rw [((retry_429_suspends pdThu att429date [] 100 "Thu" rfl rfl).2
      500 rfl rfl).2]
    rfl

theorem retriable_false_iff (pd : String → Option Int) (ro : Bool)
    (r : Response) :
    retriable429 pd ro r = false ↔
      (ro = false ∨ r.status ≠ 429 ∨ r.headers.get "retry-after" = none ∨
       ∃ s, r.headers.get "retry-after" = some s ∧ isAllDigits s = false ∧
         pd s = none) := by
  unfold retriable429
  cases hh : r.headers.get "retry-after" with
  | none =>
    cases ro <;> by_cases h : r.status = 429 <;> simp [hh, h]
  | some s =>
    cases ro <;> cases hd : isAllDigits s <;> cases hp : pd s <;>
      by_cases h : r.status = 429 <;> simp [hh, hd, hp, h]

theorem retryLoop_terminal (pd : String → Option Int) (ro : Bool)
    (a : Attempt) (rest : List Attempt) (now : Int)
    (h : retriable429 pd ro a.response = false) :
    retryLoop pd ro (a :: rest) now = ([], some a.response) := by
  unfold retriable429 at h
  unfold retryLoop
  cases hro : ro with
  | false => simp
  | true =>
    subst hro
    cases hst : (a.response.status == 429) with
    | false => simp [hst]
    | true =>
      rw [hst] at h
      cases hh : a.response.headers.get "retry-after" with
      | none => simp [hst, hh]
      | some s =>
        rw [hh] at h
        cases hd : isAllDigits s with
        | true => simp [hd] at h
        | false =>
          cases hp : pd s with
          | some e => simp [hd, hp] at h
          | none => simp [hst, hh, hd, hp]

theorem retryLoop_retries (pd : String → Option Int) (ro : Bool)
    (a : Attempt) (rest : List Attempt) (now : Int)
    (h : retriable429 pd ro a.response = true) :
    (retryLoop pd ro (a :: rest) now).1 ≠ [] := by
  unfold retriable429 at h
  unfold retryLoop
  cases hro : ro with
  | false => subst hro; simp at h
  | true =>
    subst hro
    cases hst : (a.response.status == 429) with
    | false => rw [hst] at h; simp at h
    | true =>
      rw [hst] at h
      cases hh : a.response.headers.get "retry-after" with
      | none => rw [hh] at h; simp at h
      | some s =>
        rw [hh] at h
        cases hd : isAllDigits s with
        | true => simp [hst, hh, hd]
        | false =>
          cases hp : pd s with
          | none => simp [hd, hp] at h
          | some e => simp [hst, hh, hd, hp]

/-- C2: the loop terminates exactly when the response is not a
retriable 429 — retry disabled, status not 429, `Retry-After` absent,
or its value neither all digits nor a parseable date; the current
response then becomes the terminal response, to be returned directly
or thrown by finalization. -/
theorem loop_terminates_iff (pd : String → Option Int) (ro : Bool)
    (a : Attempt) (rest : List Attempt) (now : Int) :
    ((retryLoop pd ro (a :: rest) now).1 = [] ↔
      retriable429 pd ro a.response = false)
    ∧ (retriable429 pd ro a.response = false →
        retryLoop pd ro (a :: rest) now = ([], some a.response))
    ∧ (retriable429 pd ro a.response = false ↔
        (ro = false ∨ a.response.status ≠ 429 ∨
         a.response.headers.get "retry-after" = none ∨
         ∃ s, a.response.headers.get "retry-after" = some s ∧
           isAllDigits s = false ∧ pd s = none))
    ∧ (∀ (input : Target) (cfg : GretchenRequestInit),
        truthy cfg.retryOnTooManyRequests = ro →
        retriable429 pd ro a.response = false →
        (gretchen pd input cfg (a :: rest) now).outcome =
          some (finalize (truthy cfg.throwOnError) (truthy cfg.returnJSON)
            a.response) ∧
        (gretchen pd input cfg (a :: rest) now).delays = []) := by
  refine ⟨?_, retryLoop_terminal pd ro a rest now, retriable_false_iff pd ro a.response, ?_⟩
  · constructor
    · intro h1
      cases hr : retriable429 pd ro a.response with
      | false => rfl
      | true => exact absurd h1 (retryLoop_retries pd ro a rest now hr)
    · intro h
      rw [retryLoop_terminal pd ro a rest now h]
  · intro input cfg hro h
    constructor
    · rw [gretchen_outcome_eq, hro, retryLoop_terminal pd ro a rest now h]
      rfl
    · rw [gretchen_delays_eq, hro, retryLoop_terminal pd ro a rest now h]

/-- A scripted 429 attempt with an unparseable `Retry-After` value. -/
def att429foo : Attempt :=
  { response := { status := 429, statusText := "Too Many Requests",
                  headers := [("retry-after", "foo")] } }

/-- A configuration enabling only `retryOnTooManyRequests`. -/
def cfgRetryOnly : GretchenRequestInit :=
  { retryOnTooManyRequests := some (some true) }

theorem loop_terminates_iff_witness :
    (gretchen (fun _ => none) (.url "u") cfgRetryOnly [att429foo] 0).outcome =
      some (.ok (.resp att429foo.response)) ∧
    (gretchen (fun _ => none) (.url "u") cfgRetryOnly [att429foo] 0).delays =
      [] := by
  have h := (loop_terminates_iff (fun _ => none) true att429foo [] 0).2.2.2
    (.url "u") cfgRetryOnly rfl rfl
  exact ⟨by rw [h.1]; rfl, h.2⟩

/-- C3: finalization fails with an `HTTPError` iff `throwOnError` is
enabled and the terminal status is outside the success range; the
error's message is the numeric status followed by the status text and
it carries the terminal response; without `throwOnError` no `HTTPError`
is ever observed; and `gretchen`'s outcome is exactly the finalization
of the loop's terminal response. -/
theorem httpError_iff (tE rJ : Bool) (r : Response) :
    ((∃ e, finalize tE rJ r = .error (.http e)) ↔ (tE = true ∧ r.ok = false))
    ∧ (tE = true → r.ok = false →
        finalize tE rJ r =
          .error (.http ⟨toString r.status ++ " " ++ r.statusText, r⟩))
    ∧ (tE = false → ∀ e, finalize tE rJ r ≠ .error (.http e))
    ∧ (∀ (pd : String → Option Int) (input : Target)
        (cfg : GretchenRequestInit) (script : List Attempt) (now : Int)
        (res : Response),
        (retryLoop pd (truthy cfg.retryOnTooManyRequests) script now).2 =
          some res →
        (gretchen pd input cfg script now).outcome =
          some (finalize (truthy cfg.throwOnError) (truthy cfg.returnJSON)
            res)) := by
  refine ⟨?_, ?_, ?_, ?_⟩
  · cases tE <;> cases hok : r.ok <;> cases rJ <;> cases hj : r.json <;>
      simp [finalize, hok, hj]
  · intro htE hok
    simp [finalize, htE, hok]
  · intro htE
    cases hok : r.ok <;> cases rJ <;> cases hj : r.json <;>
      simp [finalize, htE, hok, hj]
  · intro pd input cfg script now res h
    rw [gretchen_outcome_eq, h]
    rfl

/-- The terminal 500 response used by concrete witnesses. -/
def resp500 : Response :=
  { status := 500, statusText := "Internal Server Error", headers := [] }

theorem httpError_iff_witness :
    finalize true false resp500 =
      .error (.http ⟨"500 Internal Server Error", resp500⟩) ∧
    (gretchen (fun _ => none) (.url "u")
        { throwOnError := some (some true) } [{ response := resp500 }]
        0).outcome =
      some (.error (.http ⟨"500 Internal Server Error", resp500⟩)) := by
  have h2 := (httpError_iff true false resp500).2.1 rfl rfl
  refine ⟨by rw [h2]; rfl, ?_⟩
  have h4 := (httpError_iff true false resp500).2.2.2 (fun _ => none)
    (.url "u") { throwOnError := some (some true) } [{ response := resp500 }]
    0 resp500 rfl
  rw [h4]
  rfl

/-- C8: for a pre-built request descriptor target, negotiation and
serialization are skipped entirely: no header is added, the method is
not defaulted, the `body` option is dropped rather than attached, and
the descriptor plus the bare pass-through options reach the transport
unmodified — for every configuration, whatever `requestJSON`,
`returnJSON` and `sendJSON` are. -/
theorem request_target_passthrough (cfg : GretchenRequestInit)
    (d : RequestDescriptor) (pd : String → Option Int)
    (script : List Attempt) (now : Int) :
    resolveInit (.request d) cfg =
      { method := getF cfg.method
        headers := (getF cfg.headers).map HeadersValue.raw
        body := none
        extra := cfg.extra }
    ∧ (gretchen pd (.request d) cfg script now).fetchInput = .request d
    ∧ (gretchen pd (.request d) cfg script now).fetchInit =
        resolveInit (.request d) cfg :=
  ⟨rfl, rfl, rfl⟩

/-- The headers view after the `accept`-defaulting step
(lines 129-132). -/
def negAccept (cfg : GretchenRequestInit) : Headers :=
  if (callerHeaders cfg).get "accept" = none
  then (callerHeaders cfg).set "accept" "application/json"
  else callerHeaders cfg

/-- The headers view after the conditional `accept` step: negotiated
when `requestJSON`/`returnJSON` is truthy, the caller's view
otherwise. -/
def negotiatedHeaders (cfg : GretchenRequestInit) : Headers :=
  if truthy cfg.requestJSON || truthy cfg.returnJSON
  then negAccept cfg else callerHeaders cfg

theorem resolveInit_url_send (cfg : GretchenRequestInit) (s : String)
    (b : Jval) (hs : truthy cfg.sendJSON = true)
    (hb : getF cfg.body = some b) :
    resolveInit (.url s) cfg =
      { method := if getF cfg.method = none then some "POST"
                  else getF cfg.method
        headers := some (.built
          (if (negotiatedHeaders cfg).get "content-type" = none
           then (negotiatedHeaders cfg).set "content-type" "application/json"
           else negotiatedHeaders cfg))
        body := some (.str (Jval.stringify b))
        extra := cfg.extra } := by
  by_cases hc : (truthy cfg.requestJSON || truthy cfg.returnJSON) = true <;>
    by_cases hm : getF cfg.method = none <;>
      simp [resolveInit, hs, hb, hc, hm, negotiatedHeaders, negAccept,
        callerHeaders, headersOf]

theorem resolveInit_url_nosend (cfg : GretchenRequestInit) (s : String)
    (h : truthy cfg.sendJSON = false ∨ getF cfg.body = none) :
    resolveInit (.url s) cfg =
      { method := getF cfg.method
        headers := if truthy cfg.requestJSON || truthy cfg.returnJSON
          then some (.built (negAccept cfg))
          else (getF cfg.headers).map HeadersValue.raw
        body := getF cfg.body
        extra := cfg.extra } := by
  cases hsb : truthy cfg.sendJSON with
  | false =>
    by_cases hc : (truthy cfg.requestJSON || truthy cfg.returnJSON) = true <;>
      simp [resolveInit, hsb, hc, negAccept, callerHeaders, headersOf]
  | true =>
    have hbn : getF cfg.body = none := h.resolve_left (by simp [hsb])
    by_cases hc : (truthy cfg.requestJSON || truthy cfg.returnJSON) = true <;>
      simp [resolveInit, hsb, hbn, hc, negAccept, callerHeaders, headersOf]

/-- C5: for a plain URL target with truthy `sendJSON` and a defined
`body`, the resolved body is the exact JSON text serialization of
`body`, the method defaults to `POST` exactly when the caller gave
none, and `Content-Type: application/json` is added exactly when the
caller supplied no content-type header; with `sendJSON` falsy or
`body` undefined, `body` passes through unchanged. -/
theorem sendJSON_serializes (cfg : GretchenRequestInit) (s : String) :
    (∀ b : Jval, truthy cfg.sendJSON = true → getF cfg.body = some b →
      (resolveInit (.url s) cfg).body = some (.str (Jval.stringify b))
      ∧ (getF cfg.method = none →
          (resolveInit (.url s) cfg).method = some "POST")
      ∧ (∀ m, getF cfg.method = some m →
          (resolveInit (.url s) cfg).method = some m)
      ∧ ((callerHeaders cfg).get "content-type" = none →
          (resolveInit (.url s) cfg).getHeader "content-type" =
            some "application/json"))
    ∧ (truthy cfg.sendJSON = false ∨ getF cfg.body = none →
        (resolveInit (.url s) cfg).body = getF cfg.body) := by
  constructor
  · intro b hs hb
    rw [resolveInit_url_send cfg s b hs hb]
    refine ⟨rfl, ?_, ?_, ?_⟩
    · intro hm; simp [hm]
    · intro m hm; simp [hm]
    · intro hct
      have hneg : (negotiatedHeaders cfg).get "content-type" = none := by
        unfold negotiatedHeaders negAccept
        split_ifs with h1 h2
        · rw [Headers.get_set_ne _ _ _ _ (by decide)]
          exact hct
        · exact hct
        · exact hct
      simp [ResolvedInit.getHeader, headersOf, hneg, Headers.get_set_self]
  · intro h
    rw [resolveInit_url_nosend cfg s h]

/-- The configuration of the C5 witness: `sendJSON` with a concrete
object body. -/
def cfgSendW : GretchenRequestInit :=
  { sendJSON := some (some true)
    body := some (some (.obj [("Wednesday", .str "pink")])) }

theorem sendJSON_serializes_witness :
    (resolveInit (.url "u") cfgSendW).body =
      some (.str (Jval.stringify (.obj [("Wednesday", .str "pink")])))
    ∧ (resolveInit (.url "u") cfgSendW).method = some "POST"
    ∧ (resolveInit (.url "u") cfgSendW).getHeader "content-type" =
        some "application/json" := by
  have h := (sendJSON_serializes cfgSendW "u").1
    (.obj [("Wednesday", .str "pink")]) rfl rfl
  exact ⟨h.1, h.2.1 rfl, h.2.2.2 rfl⟩

theorem headerView_resolveInit (cfg : GretchenRequestInit) (s : String) :
    headersOf (resolveInit (.url s) cfg).headers =
      (match truthy cfg.sendJSON, getF cfg.body with
       | true, some _ =>
          if (negotiatedHeaders cfg).get "content-type" = none
          then (negotiatedHeaders cfg).set "content-type" "application/json"
          else negotiatedHeaders cfg
       | _, _ => negotiatedHeaders cfg) := by
  cases hs : truthy cfg.sendJSON with
  | true =>
    cases hb : getF cfg.body with
    | some b =>
      rw [resolveInit_url_send cfg s b hs hb]
      rfl
    | none =>
      rw [resolveInit_url_nosend cfg s (Or.inr hb)]
      by_cases hc : (truthy cfg.requestJSON || truthy cfg.returnJSON) = true <;>
        simp [negotiatedHeaders, hc, callerHeaders, headersOf]
  | false =>
    rw [resolveInit_url_nosend cfg s (Or.inl hs)]
    by_cases hc : (truthy cfg.requestJSON || truthy cfg.returnJSON) = true <;>
      cases hb : getF cfg.body <;>
        simp [negotiatedHeaders, hc, callerHeaders, headersOf]

theorem resolveInit_get_accept (cfg : GretchenRequestInit) (s : String) :
    (resolveInit (.url s) cfg).getHeader "accept" =
      (negotiatedHeaders cfg).get "accept" := by
  unfold ResolvedInit.getHeader
  rw [headerView_resolveInit]
  cases hs : truthy cfg.sendJSON with
  | false => cases hb : getF cfg.body <;> rfl
  | true =>
    cases hb : getF cfg.body with
    | none => rfl
    | some b =>
      show (if (negotiatedHeaders cfg).get "content-type" = none
        then (negotiatedHeaders cfg).set "content-type" "application/json"
        else negotiatedHeaders cfg).get "accept" =
          (negotiatedHeaders cfg).get "accept"
      split_ifs with h1
      · exact Headers.get_set_ne _ _ _ _ (by decide)
      · rfl

/-- C6: caller-supplied `Accept` and `Content-Type` headers are never
overwritten (case-insensitive lookup): under truthy
`requestJSON`/`returnJSON` the `Accept` value is defaulted to
`application/json` only when absent, and under truthy `sendJSON` with
a defined body the caller's `Content-Type` value always wins. -/
theorem caller_headers_win (cfg : GretchenRequestInit) (s : String) :
    (∀ v, (truthy cfg.requestJSON = true ∨ truthy cfg.returnJSON = true) →
      (callerHeaders cfg).get "accept" = some v →
      (resolveInit (.url s) cfg).getHeader "accept" = some v)
    ∧ ((truthy cfg.requestJSON = true ∨ truthy cfg.returnJSON = true) →
      (callerHeaders cfg).get "accept" = none →
      (resolveInit (.url s) cfg).getHeader "accept" =
        some "application/json")
    ∧ (∀ b v, truthy cfg.sendJSON = true → getF cfg.body = some b →
      (callerHeaders cfg).get "content-type" = some v →
      (resolveInit (.url s) cfg).getHeader "content-type" = some v) := by
  refine ⟨?_, ?_, ?_⟩
  · intro v hor hacc
    have hc : (truthy cfg.requestJSON || truthy cfg.returnJSON) = true := by
      rcases hor with h | h <;> simp [h]
    rw [resolveInit_get_accept]
    simp [negotiatedHeaders, hc, negAccept, hacc]
  · intro hor hacc
    have hc : (truthy cfg.requestJSON || truthy cfg.returnJSON) = true := by
      rcases hor with h | h <;> simp [h]
    rw [resolveInit_get_accept]
    simp [negotiatedHeaders, hc, negAccept, hacc, Headers.get_set_self]
  · intro b v hs hb hct
    rw [resolveInit_url_send cfg s b hs hb]
    have hneg : (negotiatedHeaders cfg).get "content-type" = some v := by
      unfold negotiatedHeaders negAccept
      split_ifs with h1 h2
      · rw [Headers.get_set_ne _ _ _ _ (by decide)]; exact hct
      · exact hct
      · exact hct
    simp [ResolvedInit.getHeader, headersOf, hneg]

/-- The configuration of the C6 witness: `sendJSON` and `requestJSON`
with caller-cased `Accept` and `Content-Type` headers already
present. -/
def cfgHdrW : GretchenRequestInit :=
  { sendJSON := some (some true)
    requestJSON := some (some true)
    body := some (some (.num 1))
    headers := some (some [("Accept", "text/html"),
                           ("Content-Type", "application/json; charset=utf-8")]) }

theorem caller_headers_win_witness :
    (resolveInit (.url "u") cfgHdrW).getHeader "accept" = some "text/html"
    ∧ (resolveInit (.url "u") cfgHdrW).getHeader "content-type" =
        some "application/json; charset=utf-8" := by
  have h := caller_headers_win cfgHdrW "u"
  exact ⟨h.1 "text/html" (Or.inl rfl) rfl,
    h.2.2 (.num 1) "application/json; charset=utf-8" rfl rfl rfl⟩

/-- A 200 response whose body parses as the JSON string `"hi"`. -/
def okJsonResp : Response :=
  { status := 200, statusText := "OK", headers := [], json := some (.str "hi") }

/-- Bound defaults of the C7 instance: `sendJSON` and `returnJSON`. -/
def dBindW : GretchenRequestInit :=
  { sendJSON := some (some true), returnJSON := some (some true) }

/-- Call-time overrides of the C7 instance: `returnJSON: false` plus a
body. -/
def oBindW : GretchenRequestInit :=
  { returnJSON := some (some false), body := some (some (.num 1)) }

/-- Call-time overrides without `returnJSON`, for contrast. -/
def oBindW2 : GretchenRequestInit :=
  { body := some (some (.num 1)) }

/-- C7: the bound callable produced by `createGretchen(defaults)`
behaves exactly as `gretchen` on the key-wise shallow merge of the
overrides onto the defaults; a key present in the overrides wins even
when its value is falsy or `undefined`; in particular binding
`{sendJSON: true, returnJSON: true}` and overriding with
`{returnJSON: false}` yields the raw response, while not overriding
yields the parsed body. -/
theorem bound_callable_merges (d o : GretchenRequestInit)
    (pd : String → Option Int) (input : Target) (script : List Attempt)
    (now : Int) :
    (createGretchen (some d) pd input (some o) script now =
      gretchen pd input (mergeInit d o) script now)
    ∧ (∀ x, o.returnJSON = some x → (mergeInit d o).returnJSON = some x)
    ∧ (o.returnJSON = none → (mergeInit d o).returnJSON = d.returnJSON)
    ∧ (∀ x, o.sendJSON = some x → (mergeInit d o).sendJSON = some x)
    ∧ (∀ x, o.throwOnError = some x → (mergeInit d o).throwOnError = some x)
    ∧ (∀ x, o.body = some x → (mergeInit d o).body = some x)
    ∧ (createGretchen (some dBindW) (fun _ => none) (.url "u") (some oBindW)
        [{ response := okJsonResp }] 0).outcome =
        some (.ok (.resp okJsonResp))
    ∧ (createGretchen (some dBindW) (fun _ => none) (.url "u") (some oBindW2)
        [{ response := okJsonResp }] 0).outcome =
        some (.ok (.json (.str "hi"))) := by
  refine ⟨rfl, ?_, ?_, ?_, ?_, ?_, rfl, rfl⟩
  · intro x hx; simp [mergeInit, mField, hx]
  · intro hx; simp [mergeInit, mField, hx]
  · intro x hx; simp [mergeInit, mField, hx]
  · intro x hx; simp [mergeInit, mField, hx]
  · intro x hx; simp [mergeInit, mField, hx]

theorem bound_callable_merges_witness :
    (mergeInit dBindW oBindW).returnJSON = some (some false)
    ∧ (mergeInit dBindW oBindW2).returnJSON = some (some true) := by
  refine ⟨(bound_callable_merges dBindW oBindW (fun _ => none) (.url "u")
    [] 0).2.1 (some false) rfl, ?_⟩
  exact (bound_callable_merges dBindW oBindW2 (fun _ => none) (.url "u")
    [] 0).2.2.1 rfl

theorem retryLoop_noRetry (pd : String → Option Int) (script : List Attempt)
    (now : Int) :
    retryLoop pd false script now =
      ([], script.head?.map (fun a => a.response)) := by
  cases script <;> simp [retryLoop]

/-- A configuration enabling only `throwOnError`;
`sendJSON`/`requestJSON`/`returnJSON` are unset. -/
def cfgThrowOnly : GretchenRequestInit := { throwOnError := some (some true) }

/-- A two-attempt script: a retriable 429 (`Retry-After: 1`) followed
by a 200. -/
def scriptRetryW : List Attempt :=
  [{ response := { status := 429, statusText := "Too Many Requests",
                   headers := [("retry-after", "1")] } },
   { response := okJsonResp }]

/-- C4 as stated is false: two configurations with
`sendJSON`/`requestJSON`/`returnJSON` all unset whose invocation does
not behave as the direct transport call — `throwOnError: true` throws
where the direct call yields the 500 response, and
`retryOnTooManyRequests: true` resolves to the second response instead
of the first. -/
theorem passthrough_identity_counterexample :
    (cfgThrowOnly.sendJSON = none ∧ cfgThrowOnly.requestJSON = none ∧
     cfgThrowOnly.returnJSON = none ∧
     (gretchen (fun _ => none) (.url "u") cfgThrowOnly
        [{ response := resp500 }] 0).outcome ≠
       specDirectOutcome [{ response := resp500 }])
    ∧ (cfgRetryOnly.sendJSON = none ∧ cfgRetryOnly.requestJSON = none ∧
       cfgRetryOnly.returnJSON = none ∧
       (gretchen (fun _ => none) (.url "u") cfgRetryOnly scriptRetryW
          0).outcome ≠
         specDirectOutcome scriptRetryW) := by
  refine ⟨⟨rfl, rfl, rfl, ?_⟩, ⟨rfl, rfl, rfl, ?_⟩⟩
  · intro h
    exact Except.noConfusion (Option.some.inj h)
  · intro h
    have h2 := Option.some.inj h
    have h3 : okJsonResp =
        (scriptRetryW.headD { response := okJsonResp }).response :=
      congrArg (fun x => match x with
        | Except.ok (RetVal.resp r) => r
        | _ => okJsonResp) h2
    exact absurd (congrArg Response.status h3) (by decide)

/-- C4 (amended): the pass-through identity holds once the two other
behavior-changing options are also off — for every configuration with
`sendJSON`, `requestJSON`, `returnJSON` unset (falsy) and
`retryOnTooManyRequests`, `throwOnError` falsy, the resolved request
equals the pass-through options together with the caller's raw body
(for a plain URL target; a pre-built request target drops the body
option), no suspension occurs, and the value returned is exactly the
first transport response. -/
theorem passthrough_identity (cfg : GretchenRequestInit) (s : String)
    (pd : String → Option Int) (script : List Attempt) (now : Int)
    (h1 : truthy cfg.sendJSON = false)
    (h2 : truthy cfg.requestJSON = false)
    (h3 : truthy cfg.returnJSON = false)
    (h4 : truthy cfg.retryOnTooManyRequests = false)
    (h5 : truthy cfg.throwOnError = false) :
    ((gretchen pd (.url s) cfg script now).fetchInit = specDirectInit cfg)
    ∧ ((gretchen pd (.url s) cfg script now).outcome =
        specDirectOutcome script)
    ∧ ((gretchen pd (.url s) cfg script now).delays = [])
    ∧ (∀ d : RequestDescriptor,
        (gretchen pd (.request d) cfg script now).fetchInit =
          { specDirectInit cfg with body := none }
        ∧ (gretchen pd (.request d) cfg script now).outcome =
            specDirectOutcome script) := by
  have houtcome : ∀ input : Target,
      (gretchen pd input cfg script now).outcome =
        specDirectOutcome script := by
    intro input
    rw [gretchen_outcome_eq, h4, retryLoop_noRetry]
    cases script with
    | nil => rfl
    | cons a rest =>
      simp only [List.head?, Option.map_some, specDirectOutcome,
        finalize, h5, h3]
      rfl
  refine ⟨?_, houtcome (.url s), ?_, ?_⟩
  · show resolveInit (.url s) cfg = specDirectInit cfg
    rw [resolveInit_url_nosend cfg s (Or.inl h1)]
    simp [specDirectInit, h2, h3]
  · rw [gretchen_delays_eq, h4, retryLoop_noRetry]
  · intro d
    exact ⟨rfl, houtcome (.request d)⟩

theorem passthrough_identity_witness :
    (gretchen (fun _ => none) (.url "u")
        { extra := [("credentials", .str "include")] }
        [{ response := okJsonResp }] 0).fetchInit =
      specDirectInit { extra := [("credentials", .str "include")] }
    ∧ (gretchen (fun _ => none) (.url "u")
        { extra := [("credentials", .str "include")] }
        [{ response := okJsonResp }] 0).outcome =
        some (.ok (.resp okJsonResp)) := by
  have h := passthrough_identity { extra := [("credentials", .str "include")] }
    "u" (fun _ => none) [{ response := okJsonResp }] 0 rfl rfl rfl rfl rfl
  exact ⟨h.1, h.2.1⟩

/-- The field list of the `rest` object as allocated: the argument
object's fields minus the six recognized keys. -/
def strippedFields (σ0 : Heap) (cfgAddr : Nat) : List (String × HVal) :=
  (objFields (σ0.read cfgAddr)).filter (fun p => !(recognizedKeys.contains p.1))

theorem resolveInitHeap_false_read (cfgAddr : Nat) (σ0 : Heap) :
    (resolveInitHeap false cfgAddr σ0).2.read
        (resolveInitHeap false cfgAddr σ0).1 =
      (bodyPhase ((getProp (objFields (σ0.read cfgAddr)) "sendJSON").truthyV)
        (getProp (objFields (σ0.read cfgAddr)) "body")
        (σ0 ++ [Cell.obj (objFields (σ0.read cfgAddr))]).length
        (acceptPhase
          ((getProp (objFields (σ0.read cfgAddr)) "requestJSON").truthyV)
          ((getProp (objFields (σ0.read cfgAddr)) "returnJSON").truthyV)
          (σ0 ++ [Cell.obj (objFields (σ0.read cfgAddr))]).length
          ((σ0 ++ [Cell.obj (objFields (σ0.read cfgAddr))]) ++
            [Cell.obj (strippedFields σ0 cfgAddr)]))).read
        (σ0 ++ [Cell.obj (objFields (σ0.read cfgAddr))]).length := rfl

theorem resolveInitHeap_true_read (cfgAddr : Nat) (σ0 : Heap) :
    (resolveInitHeap true cfgAddr σ0).2.read
        (resolveInitHeap true cfgAddr σ0).1 =
      Cell.obj (strippedFields σ0 cfgAddr) := by
  show Heap.read ((σ0 ++ [Cell.obj (objFields (σ0.read cfgAddr))]) ++
      [Cell.obj (strippedFields σ0 cfgAddr)])
    (σ0 ++ [Cell.obj (objFields (σ0.read cfgAddr))]).length = _
  exact Heap.read_concat_self _ _

theorem resolveInitHeap_fields (isReq : Bool) (cfgAddr : Nat) (σ0 : Heap) :
    (∀ k, k ≠ "headers" → k ≠ "method" → k ≠ "body" →
      getProp (objFields ((resolveInitHeap isReq cfgAddr σ0).2.read
          (resolveInitHeap isReq cfgAddr σ0).1)) k =
        getProp (strippedFields σ0 cfgAddr) k
      ∧ hasKey (objFields ((resolveInitHeap isReq cfgAddr σ0).2.read
          (resolveInitHeap isReq cfgAddr σ0).1)) k =
        hasKey (strippedFields σ0 cfgAddr) k)
    ∧ (∀ k, hasKey (objFields ((resolveInitHeap isReq cfgAddr σ0).2.read
          (resolveInitHeap isReq cfgAddr σ0).1)) k = true →
        k = "headers" ∨ k = "method" ∨ k = "body" ∨
        hasKey (strippedFields σ0 cfgAddr) k = true) := by
  cases isReq with
  | true =>
    rw [resolveInitHeap_true_read]
    exact ⟨fun k _ _ _ => ⟨rfl, rfl⟩, fun k h => Or.inr (Or.inr (Or.inr h))⟩
  | false =>
    simp only [resolveInitHeap_false_read]
    have hr : (σ0 ++ [Cell.obj (objFields (σ0.read cfgAddr))]).length <
        ((σ0 ++ [Cell.obj (objFields (σ0.read cfgAddr))]) ++
          [Cell.obj (strippedFields σ0 cfgAddr)]).length := by
      simp
    have hbase : objFields (((σ0 ++ [Cell.obj (objFields (σ0.read cfgAddr))]) ++
        [Cell.obj (strippedFields σ0 cfgAddr)]).read
          (σ0 ++ [Cell.obj (objFields (σ0.read cfgAddr))]).length) =
        strippedFields σ0 cfgAddr := by
      rw [Heap.read_concat_self]
      rfl
    have hracc : (σ0 ++ [Cell.obj (objFields (σ0.read cfgAddr))]).length <
        (acceptPhase
          ((getProp (objFields (σ0.read cfgAddr)) "requestJSON").truthyV)
          ((getProp (objFields (σ0.read cfgAddr)) "returnJSON").truthyV)
          (σ0 ++ [Cell.obj (objFields (σ0.read cfgAddr))]).length
          ((σ0 ++ [Cell.obj (objFields (σ0.read cfgAddr))]) ++
            [Cell.obj (strippedFields σ0 cfgAddr)])).length :=
      lt_of_lt_of_le hr (acceptPhase_length _ _ _ _)
    -- characterize the rest-object fields after the accept phase
    have hacc : ∃ accf : List (String × HVal),
        objFields ((acceptPhase
          ((getProp (objFields (σ0.read cfgAddr)) "requestJSON").truthyV)
          ((getProp (objFields (σ0.read cfgAddr)) "returnJSON").truthyV)
          (σ0 ++ [Cell.obj (objFields (σ0.read cfgAddr))]).length
          ((σ0 ++ [Cell.obj (objFields (σ0.read cfgAddr))]) ++
            [Cell.obj (strippedFields σ0 cfgAddr)])).read
          (σ0 ++ [Cell.obj (objFields (σ0.read cfgAddr))]).length) = accf ∧
        (∀ k, k ≠ "headers" →
          getProp accf k = getProp (strippedFields σ0 cfgAddr) k ∧
          hasKey accf k = hasKey (strippedFields σ0 cfgAddr) k) ∧
        (∀ k, hasKey accf k = true → k = "headers" ∨
          hasKey (strippedFields σ0 cfgAddr) k = true) := by
      cases hc : (((getProp (objFields (σ0.read cfgAddr))
          "requestJSON").truthyV ||
          (getProp (objFields (σ0.read cfgAddr)) "returnJSON").truthyV)) with
      | true =>
        refine ⟨_, by rw [acceptPhase_fields _ _ _ _ hc hr, hbase], ?_, ?_⟩
        · intro k hk
          exact ⟨getProp_setProp_ne _ _ _ _ (Ne.symm hk),
            hasKey_setProp_ne _ _ _ _ (Ne.symm hk)⟩
        · intro k hk
          rcases hasKey_setProp_imp _ _ _ _ hk with h | h
          · exact Or.inl h
          · exact Or.inr h
      | false =>
        refine ⟨strippedFields σ0 cfgAddr,
          by rw [acceptPhase_skip _ _ _ _ hc, hbase], ?_, ?_⟩
        · intro k _; exact ⟨rfl, rfl⟩
        · intro k hk; exact Or.inr hk
    obtain ⟨accf, haccf, haccp, hacci⟩ := hacc
    -- characterize the rest-object fields after the body phase
    have hbody : ∃ finf : List (String × HVal),
        objFields ((bodyPhase
          ((getProp (objFields (σ0.read cfgAddr)) "sendJSON").truthyV)
          (getProp (objFields (σ0.read cfgAddr)) "body")
          (σ0 ++ [Cell.obj (objFields (σ0.read cfgAddr))]).length
          (acceptPhase
            ((getProp (objFields (σ0.read cfgAddr)) "requestJSON").truthyV)
            ((getProp (objFields (σ0.read cfgAddr)) "returnJSON").truthyV)
            (σ0 ++ [Cell.obj (objFields (σ0.read cfgAddr))]).length
            ((σ0 ++ [Cell.obj (objFields (σ0.read cfgAddr))]) ++
              [Cell.obj (strippedFields σ0 cfgAddr)]))).read
          (σ0 ++ [Cell.obj (objFields (σ0.read cfgAddr))]).length) = finf ∧
        (∀ k, k ≠ "headers" → k ≠ "method" → k ≠ "body" →
          getProp finf k = getProp accf k ∧
          hasKey finf k = hasKey accf k) ∧
        (∀ k, hasKey finf k = true → k = "headers" ∨ k = "method" ∨
          k = "body" ∨ hasKey accf k = true) := by
      cases hcs : (((getProp (objFields (σ0.read cfgAddr))
          "sendJSON").truthyV &&
          !(getProp (objFields (σ0.read cfgAddr)) "body").isUndef)) with
      | false =>
        refine ⟨_, by rw [bodyPhase_skip_fields _ _ _ _ hcs hracc, haccf],
          ?_, ?_⟩
        · intro k _ _ hkb
          exact ⟨getProp_setProp_ne _ _ _ _ (Ne.symm hkb),
            hasKey_setProp_ne _ _ _ _ (Ne.symm hkb)⟩
        · intro k hk
          rcases hasKey_setProp_imp _ _ _ _ hk with h | h
          · exact Or.inr (Or.inr (Or.inl h))
          · exact Or.inr (Or.inr (Or.inr h))
      | true =>
        cases hm : ((getProp (objFields ((acceptPhase
            ((getProp (objFields (σ0.read cfgAddr)) "requestJSON").truthyV)
            ((getProp (objFields (σ0.read cfgAddr)) "returnJSON").truthyV)
            (σ0 ++ [Cell.obj (objFields (σ0.read cfgAddr))]).length
            ((σ0 ++ [Cell.obj (objFields (σ0.read cfgAddr))]) ++
              [Cell.obj (strippedFields σ0 cfgAddr)])).read
            (σ0 ++ [Cell.obj (objFields (σ0.read cfgAddr))]).length))
            "method").isNullish) with
        | true =>
          refine ⟨_, by rw [bodyPhase_fields_m _ _ _ _ hcs hm hracc, haccf],
            ?_, ?_⟩
          · intro k hkh hkm hkb
            rw [getProp_setProp_ne _ _ _ _ (Ne.symm hkb),
              getProp_setProp_ne _ _ _ _ (Ne.symm hkh),
              getProp_setProp_ne _ _ _ _ (Ne.symm hkm),
              hasKey_setProp_ne _ _ _ _ (Ne.symm hkb),
              hasKey_setProp_ne _ _ _ _ (Ne.symm hkh),
              hasKey_setProp_ne _ _ _ _ (Ne.symm hkm)]
            exact ⟨rfl, rfl⟩
          · intro k hk
            rcases hasKey_setProp_imp _ _ _ _ hk with h | hk2
            · exact Or.inr (Or.inr (Or.inl h))
            · rcases hasKey_setProp_imp _ _ _ _ hk2 with h | hk3
              · exact Or.inl h
              · rcases hasKey_setProp_imp _ _ _ _ hk3 with h | hk4
                · exact Or.inr (Or.inl h)
                · exact Or.inr (Or.inr (Or.inr hk4))
        | false =>
          refine ⟨_, by rw [bodyPhase_fields_nm _ _ _ _ hcs hm hracc, haccf],
            ?_, ?_⟩
          · intro k hkh hkm hkb
            rw [getProp_setProp_ne _ _ _ _ (Ne.symm hkb),
              getProp_setProp_ne _ _ _ _ (Ne.symm hkh),
              hasKey_setProp_ne _ _ _ _ (Ne.symm hkb),
              hasKey_setProp_ne _ _ _ _ (Ne.symm hkh)]
            exact ⟨rfl, rfl⟩
          · intro k hk
            rcases hasKey_setProp_imp _ _ _ _ hk with h | hk2
            · exact Or.inr (Or.inr (Or.inl h))
            · rcases hasKey_setProp_imp _ _ _ _ hk2 with h | hk3
              · exact Or.inl h
              · exact Or.inr (Or.inr (Or.inr hk3))
    obtain ⟨finf, hfinf, hfinp, hfini⟩ := hbody
    rw [hfinf]
    constructor
    · intro k hkh hkm hkb
      have h1 := hfinp k hkh hkm hkb
      have h2 := haccp k hkh
      exact ⟨h1.1.trans h2.1, h1.2.trans h2.2⟩
    · intro k hk
      rcases hfini k hk with h | h | h | h
      · exact Or.inl h
      · exact Or.inr (Or.inl h)
      · exact Or.inr (Or.inr (Or.inl h))
      · rcases hacci k h with h2 | h2
        · exact Or.inl h2
        · exact Or.inr (Or.inr (Or.inr h2))

/-- C9: the recognized options are stripped before the transport call —
the object handed to `fetch` never contains the
`requestJSON`/`retryOnTooManyRequests`/`returnJSON`/`sendJSON`/
`throwOnError` keys; every pass-through key other than the rewritten
`method`/`headers` keeps the caller's value; and every key it does
contain is either `body`/`headers`/`method` or an unrecognized key of
the caller's configuration object. -/
theorem recognized_options_stripped (isReq : Bool) (cfgAddr : Nat)
    (σ0 : Heap) :
    (∀ k, k ∈ ["requestJSON", "retryOnTooManyRequests", "returnJSON",
               "sendJSON", "throwOnError"] →
      hasKey (objFields ((resolveInitHeap isReq cfgAddr σ0).2.read
        (resolveInitHeap isReq cfgAddr σ0).1)) k = false)
    ∧ (∀ k, recognizedKeys.contains k = false → k ≠ "method" →
        k ≠ "headers" →
        getProp (objFields ((resolveInitHeap isReq cfgAddr σ0).2.read
          (resolveInitHeap isReq cfgAddr σ0).1)) k =
          getProp (objFields (σ0.read cfgAddr)) k)
    ∧ (∀ k, hasKey (objFields ((resolveInitHeap isReq cfgAddr σ0).2.read
          (resolveInitHeap isReq cfgAddr σ0).1)) k = true →
        k = "body" ∨ k = "headers" ∨ k = "method" ∨
        (hasKey (objFields (σ0.read cfgAddr)) k = true ∧
         recognizedKeys.contains k = false)) := by
  have hf := resolveInitHeap_fields isReq cfgAddr σ0
  refine ⟨?_, ?_, ?_⟩
  · intro k hk
    fin_cases hk
    · rw [(hf.1 "requestJSON" (by decide) (by decide) (by decide)).2]
      exact hasKey_filter_strip _ _ (by decide)
    · rw [(hf.1 "retryOnTooManyRequests" (by decide) (by decide)
        (by decide)).2]
      exact hasKey_filter_strip _ _ (by decide)
    · rw [(hf.1 "returnJSON" (by decide) (by decide) (by decide)).2]
      exact hasKey_filter_strip _ _ (by decide)
    · rw [(hf.1 "sendJSON" (by decide) (by decide) (by decide)).2]
      exact hasKey_filter_strip _ _ (by decide)
    · rw [(hf.1 "throwOnError" (by decide) (by decide) (by decide)).2]
      exact hasKey_filter_strip _ _ (by decide)
  · intro k hcont hkm hkh
    have hkb : k ≠ "body" := by
      intro hcontra
      rw [hcontra] at hcont
      exact absurd hcont (by decide)
    rw [(hf.1 k hkh hkm hkb).1]
    exact getProp_filter_pass _ _ hcont
  · intro k hk
    rcases hf.2 k hk with h | h | h | h
    · exact Or.inr (Or.inl h)
    · exact Or.inr (Or.inr (Or.inl h))
    · exact Or.inl h
    · have h2 := hasKey_filter_imp _ _ h
      exact Or.inr (Or.inr (Or.inr h2))

/-- The heap of the C9/C10 witnesses: a configuration object at
address 0 whose `headers` option references the caller-owned `Headers`
object at address 1. -/
def heapW : Heap :=
  [Cell.obj [("sendJSON", .boolv true), ("body", .jv (.num 1)),
             ("credentials", .strv "include"), ("headers", .ref 1)],
   Cell.hdrs [("x-a", "1")]]

theorem recognized_options_stripped_witness :
    hasKey (objFields ((resolveInitHeap false 0 heapW).2.read
      (resolveInitHeap false 0 heapW).1)) "sendJSON" = false
    ∧ getProp (objFields ((resolveInitHeap false 0 heapW).2.read
        (resolveInitHeap false 0 heapW).1)) "credentials" =
      .strv "include" := by
  have h := recognized_options_stripped false 0 heapW
  refine ⟨h.1 "sendJSON" (by decide), ?_⟩
  rw [h.2.1 "credentials" (by decide) (by decide) (by decide)]
  rfl

theorem resolveInitHeap_true_snd (cfgAddr : Nat) (σ0 : Heap) :
    (resolveInitHeap true cfgAddr σ0).2 =
      (σ0 ++ [Cell.obj (objFields (σ0.read cfgAddr))]) ++
        [Cell.obj (strippedFields σ0 cfgAddr)] := rfl

theorem resolveInitHeap_false_snd (cfgAddr : Nat) (σ0 : Heap) :
    (resolveInitHeap false cfgAddr σ0).2 =
      bodyPhase ((getProp (objFields (σ0.read cfgAddr)) "sendJSON").truthyV)
        (getProp (objFields (σ0.read cfgAddr)) "body")
        (σ0 ++ [Cell.obj (objFields (σ0.read cfgAddr))]).length
        (acceptPhase
          ((getProp (objFields (σ0.read cfgAddr)) "requestJSON").truthyV)
          ((getProp (objFields (σ0.read cfgAddr)) "returnJSON").truthyV)
          (σ0 ++ [Cell.obj (objFields (σ0.read cfgAddr))]).length
          ((σ0 ++ [Cell.obj (objFields (σ0.read cfgAddr))]) ++
            [Cell.obj (strippedFields σ0 cfgAddr)])) := rfl

/-- C10: option resolution never mutates a caller-owned object — the
argument object is copied before destructuring, the `rest` object and
every `Headers` container the defaults are written into are freshly
allocated, so after resolution every pre-existing heap cell (the
caller's configuration object, the `Headers` value it references,
anything else the caller owns) reads back unchanged. -/
theorem no_caller_mutation (isReq : Bool) (cfgAddr : Nat) (σ0 : Heap)
    (a : Nat) (ha : a < σ0.length) :
    (resolveInitHeap isReq cfgAddr σ0).2.read a = σ0.read a := by
  have ha1 : a < (σ0 ++ [Cell.obj (objFields (σ0.read cfgAddr))]).length := by
    simp
    omega
  cases isReq with
  | true =>
    rw [resolveInitHeap_true_snd, Heap.read_append_lt _ _ _ ha1,
      Heap.read_append_lt _ _ _ ha]
  | false =>
    have ha2 : a < ((σ0 ++ [Cell.obj (objFields (σ0.read cfgAddr))]) ++
        [Cell.obj (strippedFields σ0 cfgAddr)]).length := by
      simp
      omega
    have har : a ≠ (σ0 ++ [Cell.obj (objFields (σ0.read cfgAddr))]).length := by
      simp
      omega
    rw [resolveInitHeap_false_snd,
      bodyPhase_frame _ _ _ _ _ (lt_of_lt_of_le ha2 (acceptPhase_length _ _ _ _)) har,
      acceptPhase_frame _ _ _ _ _ ha2 har,
      Heap.read_append_lt _ _ _ ha1, Heap.read_append_lt _ _ _ ha]

theorem no_caller_mutation_witness :
    (resolveInitHeap false 0 heapW).2.read 0 = heapW.read 0
    ∧ (resolveInitHeap false 0 heapW).2.read 1 =
        Cell.hdrs [("x-a", "1")] := by
  refine ⟨no_caller_mutation false 0 heapW 0 (by decide), ?_⟩
  rw [no_caller_mutation false 0 heapW 1 (by decide)]
  rfl
